import Mathlib

/-!
Verification of the agent lifecycle and execution orchestrator of the
TalentekIA repository.

The repository contains two main re-implementations of the orchestrator:

* `src/agents/agent_manager.py` + `src/agents/base_agent.py` (the "flat"
  module layout), embedded below in namespace `Flat`;
* `src/agents/` under the inner `src/` package
  (`src/agents/agent_manager.py`, `src/agents/base_agent.py` of that
  package), embedded below in namespace `Core`;
* the legacy fan-out script `scripts/legacy/run_all_agents.py`, embedded
  in namespace `Legacy`.

Python dictionaries are embedded as association lists with in-place
update (`dset`), machine time is an explicit `Nat` parameter or a `clock`
field threaded through the state, and methods that may raise are given
explicit outcome types (`ExecRes`, `StepRes`, `PyResult`).
-/

/-- Outcome of calling a Python method that either returns a value of
type `Bool` or raises an exception caught by the caller. -/
inductive ExecRes where
  | ok (b : Bool)
  | exc (msg : String)
deriving DecidableEq

/-- Outcome of one step of an agent lifecycle.  `exc` is an exception of
class `Exception` (caught by a bare `except Exception` handler); `fatal`
is a `BaseException` such as `KeyboardInterrupt`, which such a handler
does not catch. -/
inductive StepRes (α : Type) where
  | ok (a : α)
  | exc (msg : String)
  | fatal (msg : String)
deriving DecidableEq

/-- Result of a Python call as seen by its caller: either a returned
value or a propagated (uncaught) exception. -/
inductive PyResult (α : Type) where
  | value (a : α)
  | raised (msg : String)
deriving DecidableEq

/-- The keys of the status dictionary that the agent manager of the
inner package reads.  `BaseAgent.get_status` of that package populates
the keys `"running"` (from `self.is_running`) and `"status"` (from
`self.status`); it never emits a key `"is_running"`, which is modelled
by `isRunningKey`.  A missing key is `none`. -/
structure StatusDict where
  isRunningKey : Option Bool
  runningKey : Option Bool
  statusKey : Option String
deriving DecidableEq

/-- The behaviour of a dynamically loaded agent class, as the duck-typed
manager sees it: what its `get_status` method returns (as a function of
the instance's `status` attribute and `is_running` attribute, the two
attributes the manager can mutate or read), and what its `execute`
method does. -/
structure AgentSpec where
  getStatusFn : String → Bool → Except String StatusDict
  executeRes : ExecRes

/-- A live agent instance cached by the manager.  `instId` is a fresh
number per construction and models object identity (reference
equality). -/
structure AgentInstance where
  instId : Nat
  spec : AgentSpec
  statusField : String
  isRunningAttr : Bool

/-- One entry of `AgentManager.agents`: the `"loaded"` flag and the
`"instance"` slot. -/
structure AgentEntry where
  loaded : Bool
  inst : Option AgentInstance

/-- One record of `AgentManager.execution_history`: the dictionary built
by `_register_execution`.  The `error` key is present only when a
non-empty error string was supplied (Python's `if error:` test). -/
structure HistRecord where
  timestamp : Nat
  success : Bool
  duration : Nat
  error : Option String
deriving DecidableEq

/-- The mutable state of an `AgentManager` object: the `agents` registry
and the per-agent `execution_history`, plus bookkeeping that models the
outside world: `nextInstId` numbers constructed instances,
`loadAttempts` counts how many times `_load_agent` ran, and `clock` is
the current wall-clock reading. -/
structure MgrState where
  agents : List (String × AgentEntry)
  history : List (String × List HistRecord)
  nextInstId : Nat
  loadAttempts : Nat
  clock : Nat

/-- What Python's import-and-construct machinery yields for an agent id:
`none` when the module import, the class lookup or the constructor
fails, otherwise the behaviour of the constructed instance. -/
abbrev LoadEnv := String → Option AgentSpec

/-- In-place update of a Python dictionary modelled as an association
list: replace the value at the key if present, otherwise append. -/
def dset {α : Type} (l : List (String × α)) (k : String) (v : α) :
    List (String × α) :=
  match l with
  | [] => [(k, v)]
  | (k0, v0) :: t => if k0 = k then (k, v) :: t else (k0, v0) :: dset t k v

namespace Core

/-- Embedding of `AgentManager._load_agent` (inner package): import the
module `src.agents.<id>_agent`, look up the CamelCase class, construct
it, and cache the instance; on any failure mark the entry not loaded
with a null instance.  Every call is one load attempt. -/
def load_agent (env : LoadEnv) (id : String) (s : MgrState) :
    Bool × MgrState :=
  let s1 : MgrState := { s with loadAttempts := s.loadAttempts + 1 }
  match env id with
  | some sp =>
      let a : AgentInstance :=
        { instId := s1.nextInstId, spec := sp, statusField := "ready",
          isRunningAttr := false }
      (true, { s1 with
                 agents := dset s1.agents id { loaded := true, inst := some a },
                 nextInstId := s1.nextInstId + 1 })
  | none =>
      (false, { s1 with
                  agents := dset s1.agents id { loaded := false, inst := none } })

/-- Embedding of `AgentManager.get_agent` (inner package): `None` for an
unregistered id; reload whenever the entry is not loaded or its instance
slot is null; otherwise return the cached instance. -/
def get_agent (env : LoadEnv) (id : String) (s : MgrState) :
    Option AgentInstance × MgrState :=
  match List.lookup id s.agents with
  | none => (none, s)
  | some e =>
      if !e.loaded || e.inst.isNone then
        ((List.lookup id ((load_agent env id s).2).agents).bind
           (fun e1 => e1.inst),
         (load_agent env id s).2)
      else (e.inst, s)

/-- The default status dictionary `get_agent_status` returns when the
agent could not be obtained: it carries `"is_running": False` and
`"status": "not_loaded"`. -/
def default_status : StatusDict :=
  { isRunningKey := some false, runningKey := none,
    statusKey := some "not_loaded" }

/-- The fallback status dictionary `get_agent_status` builds when the
agent's own `get_status` raises: `"is_running"` is read off the
instance attribute with `getattr(agent, "is_running", False)`. -/
def fallback_status (a : AgentInstance) : StatusDict :=
  { isRunningKey := some a.isRunningAttr, runningKey := none,
    statusKey := some "error" }

/-- Embedding of `AgentManager.get_agent_status` (inner package). -/
def get_agent_status (env : LoadEnv) (id : String) (s : MgrState) :
    StatusDict × MgrState :=
  match get_agent env id s with
  | (none, s1) => (default_status, s1)
  | (some a, s1) =>
      match a.spec.getStatusFn a.statusField a.isRunningAttr with
      | .ok d =>
          (if d.statusKey.isNone then { d with statusKey := some "ready" }
           else d, s1)
      | .error _ => (fallback_status a, s1)

/-- Mutation `agent.status = st` on the cached instance of `id`. -/
def set_status_field (s : MgrState) (id : String) (st : String) : MgrState :=
  match List.lookup id s.agents with
  | some e =>
      match e.inst with
      | some a =>
          { s with agents := dset s.agents id
                     { e with inst := some { a with statusField := st } } }
      | none => s
  | none => s

/-- Embedding of `AgentManager._register_execution` (inner package):
prepend the new record (most recent first), then, if the list exceeds
100 entries, `pop()` the last (oldest) one.  The `error` key is only
set when the error string is non-empty. -/
def register_execution (id : String) (success : Bool) (duration : Nat)
    (error : Option String) (s : MgrState) : MgrState :=
  let hist := (List.lookup id s.history).getD []
  let rec1 : HistRecord :=
    { timestamp := s.clock, success := success, duration := duration,
      error := match error with
               | some e => if e = "" then none else some e
               | none => none }
  let h1 := rec1 :: hist
  let h2 := if h1.length > 100 then h1.dropLast else h1
  { s with history := dset s.history id h2 }

/-- Embedding of `AgentManager.get_execution_history` (inner package):
empty list for an id with no history, otherwise the first `limit`
entries of the stored (most-recent-first) list. -/
def get_execution_history (id : String) (limit : Nat) (s : MgrState) :
    List HistRecord :=
  match List.lookup id s.history with
  | none => []
  | some h => h.take limit

/-- Embedding of `AgentManager.run_agent` (inner package).  `dur` is the
measured wall-clock duration of the run.  The guard reads
`status.get("is_running", False)` on the snapshot returned by
`get_agent_status`. -/
def run_agent (env : LoadEnv) (id : String) (dur : Nat) (s : MgrState) :
    Bool × MgrState :=
  match get_agent env id s with
  | (none, s1) => (false, s1)
  | (some a, s1) =>
      match get_agent_status env id s1 with
      | (st, s2) =>
          if st.isRunningKey.getD false then (false, s2)
          else
            match a.spec.executeRes with
            | .ok success =>
                (success,
                 set_status_field
                   (register_execution id success dur none
                     (set_status_field s2 id "running")) id
                   (if success then "completed" else "error"))
            | .exc msg =>
                (false,
                 set_status_field
                   (register_execution id false dur (some msg)
                     (set_status_field s2 id "running")) id "error")

/-- Stored history of `id` (most recent first). -/
def histAt (id : String) (s : MgrState) : List HistRecord :=
  (List.lookup id s.history).getD []

/-- Length of the stored history of `id`. -/
def histLen (id : String) (s : MgrState) : Nat :=
  (histAt id s).length

/-- The history-list transformation one `_register_execution` call
performs: prepend, then pop the last entry if over the cap of 100. -/
def stepHist (r : HistRecord) (h : List HistRecord) : List HistRecord :=
  if (r :: h).length > 100 then (r :: h).dropLast else r :: h

/-- Embedding of `BaseAgent.get_status` of the inner package, restricted
to the keys the manager reads: it emits `"running"` (the `is_running`
attribute) and `"status"` (the `status` attribute) and never emits an
`"is_running"` key. -/
def baseGetStatus (statusField : String) (isRunningAttr : Bool) :
    Except String StatusDict :=
  .ok { isRunningKey := none, runningKey := some isRunningAttr,
        statusKey := some statusField }

/-- Folding `register_execution` over a chronological list of
`(success, duration, error)` argument triples. -/
def registerMany (id : String) (rs : List (Bool × Nat × Option String))
    (s : MgrState) : MgrState :=
  rs.foldl (fun st r => register_execution id r.1 r.2.1 r.2.2 st) s

/-- The record `register_execution` builds from an argument triple at
clock value `c`. -/
def recOf (c : Nat) (r : Bool × Nat × Option String) : HistRecord :=
  { timestamp := c, success := r.1, duration := r.2.1,
    error := match r.2.2 with
             | some e => if e = "" then none else some e
             | none => none }

/-- Behaviour of the collaborators of `BaseAgent.run` of the inner
package: what `self.execute()` yields, what `self.process_data(None)`
yields (`ok b` returns data with `b` recording whether it is a
`DataFrame`), what `generate_report` yields, the two success flags
`save_results` computes internally (its return value is `None` and is
ignored by `run`), and the current `self.last_error` attribute. -/
structure RunBehav where
  execRes : StepRes Bool
  processIsDF : StepRes Bool
  genRes : StepRes Unit
  saveFlags : Bool × Bool
  lastError : Option String

/-- The keys of the result dictionary of `BaseAgent.run` of the inner
package that the claims are about.  On success the dictionary has no
`"error"` key at all, modelled as `error = none`. -/
structure RunDict where
  success : Bool
  error : Option String
deriving DecidableEq

/-- Observable outcome of `BaseAgent.run` of the inner package: the
result dictionary, the final `self.status`, whether `save_results` was
invoked (and with which internal flags), and the final `is_running`
attribute. -/
structure RunOut where
  dict : RunDict
  statusAfter : String
  savedFlags : Option (Bool × Bool)
  isRunningAfter : Bool
deriving DecidableEq

/-- Python's `self.last_error or "Unknown error"`: `None` and the empty
string are both falsy. -/
def orUnknown (e : Option String) : String :=
  match e with
  | some m => if m = "" then "Unknown error" else m
  | none => "Unknown error"

/-- Embedding of `BaseAgent.run` of the inner package.  The method sets
`is_running`/`status`/`last_run`, runs `self.execute()` inside
`try/except Exception`, and on success calls `process_data`, and, when
the data is a `DataFrame`, `generate_report` and `save_results` (whose
return value it discards).  `is_running = False` is executed after the
`try/except`, so a `fatal` (non-`Exception`) raise skips it and
propagates.  The initial `self.initialize()` bookkeeping only toggles
the `initialized` flag and cannot raise, so it is not modelled. -/
def base_run (b : RunBehav) : PyResult RunOut :=
  match b.execRes with
  | .fatal m => .raised m
  | .exc m => .value ⟨⟨false, some m⟩, "error", none, false⟩
  | .ok success =>
      if success then
        match b.processIsDF with
        | .fatal m => .raised m
        | .exc m => .value ⟨⟨false, some m⟩, "error", none, false⟩
        | .ok isDF =>
            if isDF then
              match b.genRes with
              | .fatal m => .raised m
              | .exc m => .value ⟨⟨false, some m⟩, "error", none, false⟩
              | .ok _ =>
                  .value ⟨⟨true, none⟩, "completed", some b.saveFlags, false⟩
            else .value ⟨⟨true, none⟩, "completed", none, false⟩
      else .value ⟨⟨false, some (orUnknown b.lastError)⟩, "error", none, false⟩

end Core

namespace Flat

/-- One line of the execution-history log written by `log_execution` of
`agents/agent_manager.py` (flat layout): `timestamp|agent_id|success|`
`duration`.  The line format has no error field. -/
structure LogEntry where
  agentId : String
  success : Bool
  duration : Nat
deriving DecidableEq

/-- Behaviour of the object `load_agent` constructs (flat layout): how
long its `execute` method runs and what it yields. -/
structure AgentBehav where
  runDuration : Nat
  res : StepRes Bool

/-- Embedding of `execute_agent` of `agents/agent_manager.py` (flat
layout).  `loaded` is the outcome of `load_agent(agent_id)`, which
constructs a fresh instance per call and returns `None` on any failure.
The agent's `execute` runs in a `ThreadPoolExecutor` future awaited
with `future.result(timeout=timeout)`; the future times out exactly
when the run outlasts the timeout.  On timeout the code logs a failed
execution whose duration field is the `timeout` value and returns
`False`; an `Exception` raised by the run is caught by the outer
handler, which also logs a failed execution; the returned value is the
bare boolean the agent produced.  Load failure logs nothing. -/
def execute_agent (id : String) (loaded : Option AgentBehav)
    (timeout : Nat) : PyResult Bool × List LogEntry :=
  match loaded with
  | none => (.value false, [])
  | some b =>
      if timeout < b.runDuration then
        (.value false, [{ agentId := id, success := false, duration := timeout }])
      else
        match b.res with
        | .ok r => (.value r, [{ agentId := id, success := r, duration := b.runDuration }])
        | .exc _ => (.value false, [{ agentId := id, success := false, duration := b.runDuration }])
        | .fatal m => (.raised m, [])

/-- The agent-local state `BaseAgent.execute` (flat layout) mutates. -/
structure BAState where
  is_running : Bool
  last_run : Option Nat
deriving DecidableEq

/-- Behaviour of the abstract collaborators of `BaseAgent.execute` (flat
layout): what `self.run()` yields, whether `self.results` is non-`None`
afterwards, and what `process_data`, `generate_report` and
`save_results` yield.  `save_results` returns the pair
`(csv_success, md_success)`. -/
structure BABehav where
  runRes : StepRes Bool
  resultsSome : Bool
  processRes : StepRes Unit
  genRes : StepRes Unit
  saveRes : StepRes (Bool × Bool)

/-- The `try` body of `BaseAgent.execute` (flat layout), evaluated for
the final value of the local variable `success` (initially `False`,
assigned `csv_success and md_success` only after a full pipeline). -/
def try_body (b : BABehav) : StepRes Bool :=
  match b.runRes with
  | .exc m => .exc m
  | .fatal m => .fatal m
  | .ok rs =>
      if rs && b.resultsSome then
        match b.processRes with
        | .exc m => .exc m
        | .fatal m => .fatal m
        | .ok _ =>
            match b.genRes with
            | .exc m => .exc m
            | .fatal m => .fatal m
            | .ok _ =>
                match b.saveRes with
                | .exc m => .exc m
                | .fatal m => .fatal m
                | .ok p => .ok (p.1 && p.2)
      else .ok false

/-- Embedding of `BaseAgent.execute` (flat layout).  The body runs under
`try/except Exception/finally`; the `except` arm only logs, leaving
`success` at its last value (`False` unless the full pipeline ran); the
`finally` arm clears `is_running`, stamps `last_run` and ends with
`return success`, and in Python a `return` inside `finally` discards
any in-flight exception — including a `fatal` one the `except` arm did
not catch — so the method always returns the boolean `success`. -/
def base_execute (b : BABehav) (now : Nat) (st : BAState) :
    BAState × PyResult Bool :=
  let success : Bool :=
    match try_body b with
    | .ok s => s
    | .exc _ => false
    | .fatal _ => false
  ({ st with is_running := false, last_run := some now }, .value success)

/-- In-place update of the Python results dictionary of
`execute_multiple_agents`: `results[agent_id] = v` overwrites an
existing key in place, else appends (insertion order preserved). -/
def dinsert (l : List (String × Bool)) (k : String) (v : Bool) :
    List (String × Bool) :=
  match l with
  | [] => [(k, v)]
  | (k0, v0) :: t => if k0 = k then (k, v) :: t else (k0, v0) :: dinsert t k v

/-- Embedding of the `parallel=True` branch of `execute_multiple_agents`
(flat layout): one future per requested id, and the results dictionary
is filled in the order `concurrent.futures.as_completed` yields the
futures — the completion order `order`, an arbitrary interleaving of
the submitted ids.  `res` gives the boolean each agent's
`execute_agent` call produces. -/
def execute_multiple_parallel (res : String → Bool) (order : List String) :
    List (String × Bool) :=
  order.foldl (fun acc id => dinsert acc id (res id)) []

end Flat

namespace Legacy

/-- One per-agent result dictionary built by `run_agent` of
`scripts/legacy/run_all_agents.py`. -/
structure RunRes where
  agent_id : String
  success : Bool
  duration : Nat
deriving DecidableEq

/-- The slot table of `asyncio.gather`: starting from all slots empty,
each index of `order` (the completion order) stores its task's result
into its own slot. -/
def gather_slots {α : Type} (f : Nat → α) (order : List Nat) :
    Nat → Option α :=
  order.foldl (fun g i => fun j => if j = i then some (f i) else g j)
    (fun _ => none)

/-- Embedding of the `parallel` branch of `run_all_agents` of
`scripts/legacy/run_all_agents.py`: one task per agent id, awaited with
`asyncio.gather(*tasks)`, which returns the results in task order (the
input order) no matter in which order the tasks complete.  `outcome`
and `durOf` give each agent's success flag and measured duration. -/
def run_all_agents (outcome : String → Bool) (durOf : String → Nat)
    (ids : List String) (order : List Nat) : List RunRes :=
  (List.range ids.length).map
    (fun i =>
      (gather_slots
          (fun j =>
            ({ agent_id := ids.getD j "", success := outcome (ids.getD j ""),
               duration := durOf (ids.getD j "") } : RunRes)) order i).getD
        { agent_id := "", success := false, duration := 0 })

end Legacy

/-! Concrete sample data used to evaluate the embedded operations. -/

/-- An import environment in which no agent module loads. -/
def envNone : LoadEnv := fun _ => none

/-- A well-behaved agent class of the inner package: `get_status` is the
inherited `BaseAgent.get_status` and `execute` returns `True`. -/
def spec1 : AgentSpec :=
  { getStatusFn := Core.baseGetStatus, executeRes := .ok true }

/-- An import environment in which only the id `"x"` loads, as class
`spec1`. -/
def env1 : LoadEnv := fun id => if id = "x" then some spec1 else none

/-- A manager state in which `"x"` is registered but not yet loaded and
nothing has run. -/
def sReg0 : MgrState :=
  { agents := [("x", { loaded := false, inst := none })], history := [],
    nextInstId := 0, loadAttempts := 0, clock := 0 }

/-- The instance `env1` constructs on the first load in `sReg0`. -/
def inst1 : AgentInstance :=
  { instId := 0, spec := spec1, statusField := "ready", isRunningAttr := false }

/-- The manager state after `"x"` was loaded once from `sReg0`. -/
def sLoaded : MgrState :=
  { agents := [("x", { loaded := true, inst := some inst1 })], history := [],
    nextInstId := 1, loadAttempts := 1, clock := 0 }

/-- A cached instance of the inner-package `BaseAgent` shape whose
`status` attribute was set to `"running"` by an in-progress
`run_agent` call. -/
def instBusy : AgentInstance :=
  { instId := 0, spec := spec1, statusField := "running", isRunningAttr := false }

/-- Manager state observed while an execution of `"linkedin"` is in
progress: the cached instance's `status` attribute is `"running"`. -/
def sBusy : MgrState :=
  { agents := [("linkedin", { loaded := true, inst := some instBusy })],
    history := [], nextInstId := 1, loadAttempts := 1, clock := 5 }

/-- A duck-typed agent class whose `get_status` does expose the key
`"is_running"`, reporting `True` (always running): the shape the
manager's guard was written against. -/
def specDuck : AgentSpec :=
  { getStatusFn := fun _ _ =>
      .ok { isRunningKey := some true, runningKey := none,
            statusKey := some "running" },
    executeRes := .ok true }

/-- A cached instance of the duck-typed class `specDuck`. -/
def instDuck : AgentInstance :=
  { instId := 0, spec := specDuck, statusField := "running",
    isRunningAttr := true }

/-- Manager state in which the agent `"y"` reports itself running, so a
new `run_agent ("y")` call takes the immediate-reject branch. -/
def sReject : MgrState :=
  { agents := [("y", { loaded := true, inst := some instDuck })],
    history := [], nextInstId := 1, loadAttempts := 1, clock := 7 }

/-- 105 execution-argument triples, all successful, one second each. -/
def rs105 : List (Bool × Nat × Option String) :=
  List.replicate 105 (true, 1, none)

/-- A flat-layout agent whose run takes 10 seconds and returns `True`. -/
def behavSlow : Flat.AgentBehav := { runDuration := 10, res := .ok true }

/-- A flat-layout agent whose run takes 5 seconds and returns `False`
without raising (a business failure). -/
def behavBiz : Flat.AgentBehav := { runDuration := 5, res := .ok false }

/-- A flat-layout lifecycle in which everything succeeds except the
Markdown half of `save_results`. -/
def bSavePart : Flat.BABehav :=
  { runRes := .ok true, resultsSome := true, processRes := .ok (),
    genRes := .ok (), saveRes := .ok (true, false) }

/-- The same lifecycle with both persistence flags true. -/
def bSaveOk : Flat.BABehav :=
  { runRes := .ok true, resultsSome := true, processRes := .ok (),
    genRes := .ok (), saveRes := .ok (true, true) }

/-- An inner-package run in which the business logic succeeds, the data
is a `DataFrame`, and `save_results` fails on the Markdown half. -/
def rbPart : Core.RunBehav :=
  { execRes := .ok true, processIsDF := .ok true, genRes := .ok (),
    saveFlags := (true, false), lastError := none }

/-- Initial flat-layout agent state: mid-call, never run before. -/
def stBA0 : Flat.BAState := { is_running := true, last_run := none }

/-- Batch outcome function: every agent succeeds. -/
def outW : String → Bool := fun _ => true

/-- Batch durations: agent `"b"` sleeps longer than the others. -/
def durW : String → Nat := fun id => if id = "b" then 9 else 1

/-- Per-agent results for the flat parallel batch: all succeed. -/
def resTrue : String → Bool := fun _ => true

/-! Helper lemmas about the embedding. -/

theorem lookup_dset_self {α : Type} (l : List (String × α)) (k : String)
    (v : α) : List.lookup k (dset l k v) = some v := by
  induction l with
  | nil => simp [dset, List.lookup]
  | cons p t ih =>
      obtain ⟨k0, v0⟩ := p
      by_cases h : k0 = k
      · simp [dset, h, List.lookup]
      · have hbeq : (k == k0) = false := by
          rw [beq_eq_false_iff_ne]
          exact fun hh => h hh.symm
        simp [dset, h, List.lookup, hbeq, ih]

theorem load_agent_history (env : LoadEnv) (id : String) (s : MgrState) :
    ((Core.load_agent env id s).2).history = s.history := by
  unfold Core.load_agent
  cases env id <;> rfl

theorem load_agent_clock (env : LoadEnv) (id : String) (s : MgrState) :
    ((Core.load_agent env id s).2).clock = s.clock := by
  unfold Core.load_agent
  cases env id <;> rfl

theorem get_agent_history (env : LoadEnv) (id : String) (s : MgrState) :
    ((Core.get_agent env id s).2).history = s.history := by
  unfold Core.get_agent
  split
  · rfl
  · split
    · exact load_agent_history env id s
    · rfl

theorem get_agent_clock (env : LoadEnv) (id : String) (s : MgrState) :
    ((Core.get_agent env id s).2).clock = s.clock := by
  unfold Core.get_agent
  split
  · rfl
  · split
    · exact load_agent_clock env id s
    · rfl

theorem get_agent_status_history (env : LoadEnv) (id : String)
    (s : MgrState) :
    ((Core.get_agent_status env id s).2).history = s.history := by
  have h := get_agent_history env id s
  unfold Core.get_agent_status
  split
  · rename_i s1 heq
    rw [heq] at h
    exact h
  · rename_i a s1 heq
    rw [heq] at h
    split <;> exact h

theorem get_agent_status_clock (env : LoadEnv) (id : String)
    (s : MgrState) :
    ((Core.get_agent_status env id s).2).clock = s.clock := by
  have h := get_agent_clock env id s
  unfold Core.get_agent_status
  split
  · rename_i s1 heq
    rw [heq] at h
    exact h
  · rename_i a s1 heq
    rw [heq] at h
    split <;> exact h

theorem set_status_field_history (s : MgrState) (id : String)
    (st : String) : (Core.set_status_field s id st).history = s.history := by
  unfold Core.set_status_field
  cases List.lookup id s.agents with
  | none => rfl
  | some e =>
      obtain ⟨lo, oin⟩ := e
      cases oin <;> rfl

theorem set_status_field_clock (s : MgrState) (id : String)
    (st : String) : (Core.set_status_field s id st).clock = s.clock := by
  unfold Core.set_status_field
  cases List.lookup id s.agents with
  | none => rfl
  | some e =>
      obtain ⟨lo, oin⟩ := e
      cases oin <;> rfl

theorem register_histAt (id : String) (su : Bool) (du : Nat)
    (er : Option String) (s : MgrState) :
    Core.histAt id (Core.register_execution id su du er s)
      = Core.stepHist (Core.recOf s.clock (su, du, er)) (Core.histAt id s) := by
  unfold Core.register_execution Core.histAt Core.stepHist Core.recOf
  simp [lookup_dset_self]

theorem register_clock (id : String) (su : Bool) (du : Nat)
    (er : Option String) (s : MgrState) :
    (Core.register_execution id su du er s).clock = s.clock := rfl

theorem step_take (r : HistRecord) (h : List HistRecord)
    (hle : h.length ≤ 100) : Core.stepHist r h = (r :: h).take 100 := by
  unfold Core.stepHist
  by_cases hc : (r :: h).length > 100
  · rw [if_pos hc]
    have h100 : h.length = 100 := by
      simp only [List.length_cons] at hc
      omega
    have hlen : (r :: h).length = 101 := by simp [h100]
    rw [List.dropLast_eq_take, hlen]
  · rw [if_neg hc]
    have : (r :: h).length ≤ 100 := by omega
    rw [List.take_of_length_le this]

theorem take_append_take {α : Type} (a b : List α) (n : Nat) :
    (a ++ b.take n).take n = (a ++ b).take n := by
  rw [List.take_append_eq_append_take, List.take_append_eq_append_take,
    List.take_take]
  have hmin : min (n - a.length) n = n - a.length :=
    Nat.min_eq_left (Nat.sub_le n a.length)
  rw [hmin]

theorem registerMany_histAt (id : String) :
    ∀ (rs : List (Bool × Nat × Option String)) (s : MgrState),
      (Core.histAt id s).length ≤ 100 →
      Core.histAt id (Core.registerMany id rs s)
        = ((rs.map (Core.recOf s.clock)).reverse ++ Core.histAt id s).take 100 := by
  intro rs
  induction rs with
  | nil =>
      intro s h
      simp only [Core.registerMany, List.foldl_nil, List.map_nil,
        List.reverse_nil, List.nil_append]
      exact (List.take_of_length_le h).symm
  | cons r tl ih =>
      intro s h
      have hstep : Core.histAt id (Core.register_execution id r.1 r.2.1 r.2.2 s)
          = (Core.recOf s.clock r :: Core.histAt id s).take 100 := by
        rw [register_histAt, step_take _ _ h]
      have hck : (Core.register_execution id r.1 r.2.1 r.2.2 s).clock = s.clock :=
        register_clock id r.1 r.2.1 r.2.2 s
      have hlen :
          (Core.histAt id (Core.register_execution id r.1 r.2.1 r.2.2 s)).length
            ≤ 100 := by
        rw [hstep]
        exact List.length_take_le 100 _
      have hfold : Core.registerMany id (r :: tl) s
          = Core.registerMany id tl (Core.register_execution id r.1 r.2.1 r.2.2 s) :=
        rfl
      rw [hfold, ih _ hlen, hck, hstep, take_append_take]
      rw [List.map_cons, List.reverse_cons, List.append_assoc,
        List.singleton_append]

theorem gather_fold {α : Type} (f : Nat → α) :
    ∀ (order : List Nat) (g : Nat → Option α) (j : Nat),
      (order.foldl (fun g0 i => fun j0 => if j0 = i then some (f i) else g0 j0) g) j
        = if j ∈ order then some (f j) else g j := by
  intro order
  induction order with
  | nil => intro g j; simp
  | cons i tl ih =>
      intro g j
      rw [List.foldl_cons, ih]
      by_cases hj : j ∈ tl
      · simp [hj, List.mem_cons]
      · by_cases hji : j = i
        · subst hji
          simp [hj, List.mem_cons]
        · simp [hj, hji, List.mem_cons]

theorem range_map_getD {β : Type} (k : String → β) (d : String) :
    ∀ ids : List String,
      (List.range ids.length).map (fun i => k (ids.getD i d)) = ids.map k := by
  intro ids
  induction ids with
  | nil => simp
  | cons x t ih =>
      rw [List.length_cons, List.range_succ_eq_map, List.map_cons,
        List.map_map, List.map_cons]
      have h0 : k ((x :: t).getD 0 d) = k x := rfl
      have hcomp :
          ((fun i => k ((x :: t).getD i d)) ∘ Nat.succ)
            = fun i => k (t.getD i d) := by
        funext i
        rfl
      rw [h0, hcomp, ih]

theorem stepHist_head (r : HistRecord) (h : List HistRecord) :
    (Core.stepHist r h).head? = some r := by
  unfold Core.stepHist
  by_cases hc : (r :: h).length > 100
  · rw [if_pos hc]
    cases h with
    | nil => simp at hc
    | cons y t => rfl
  · rw [if_neg hc]
    rfl

theorem register_histLen (id : String) (su : Bool) (du : Nat)
    (er : Option String) (s : MgrState) (h : Core.histLen id s ≤ 100) :
    Core.histLen id (Core.register_execution id su du er s)
      = min 100 (Core.histLen id s + 1) := by
  unfold Core.histLen
  rw [register_histAt, step_take _ _ h, List.length_take, List.length_cons]

theorem set_status_field_histLen (s : MgrState) (id0 id st : String) :
    Core.histLen id0 (Core.set_status_field s id st) = Core.histLen id0 s := by
  unfold Core.histLen Core.histAt
  rw [set_status_field_history]

theorem get_agent_after_load_some (env : LoadEnv) (id : String)
    (s : MgrState) (sp : AgentSpec) (he : env id = some sp) :
    List.lookup id ((Core.load_agent env id s).2).agents
      = some { loaded := true,
               inst := some { instId := s.nextInstId, spec := sp,
                              statusField := "ready", isRunningAttr := false } } := by
  unfold Core.load_agent
  rw [he]
  exact lookup_dset_self _ _ _

theorem get_agent_after_load_none (env : LoadEnv) (id : String)
    (s : MgrState) (he : env id = none) :
    List.lookup id ((Core.load_agent env id s).2).agents
      = some { loaded := false, inst := none } := by
  unfold Core.load_agent
  rw [he]
  exact lookup_dset_self _ _ _

theorem load_agent_attempts (env : LoadEnv) (id : String) (s : MgrState) :
    ((Core.load_agent env id s).2).loadAttempts = s.loadAttempts + 1 := by
  unfold Core.load_agent
  cases env id <;> rfl

theorem get_agent_eq_none (env : LoadEnv) (id : String) (s : MgrState)
    (hl : List.lookup id s.agents = none) :
    Core.get_agent env id s = (none, s) := by
  unfold Core.get_agent
  rw [hl]

theorem get_agent_eq_entry (env : LoadEnv) (id : String) (s : MgrState)
    (e : AgentEntry) (hl : List.lookup id s.agents = some e) :
    Core.get_agent env id s
      = if !e.loaded || e.inst.isNone then
          ((List.lookup id ((Core.load_agent env id s).2).agents).bind
             (fun e1 => e1.inst),
           (Core.load_agent env id s).2)
        else (e.inst, s) := by
  unfold Core.get_agent
  rw [hl]

/-! Claim theorems. -/

/-- C4: the stored execution history never exceeds the cap of 100
records (the cap is preserved by every append); appending 105 records
to an empty history leaves exactly 100 stored most-recent-first — the
retained records, read oldest-first, are the input minus its first 5
(the oldest 5 evicted, FIFO) — and retrieval returns the stored
most-recent-first list truncated to the requested limit, never more
than `limit` records, and the empty sequence for an agent with no
history. -/
theorem history_bounded :
    (∀ (id : String) (su : Bool) (du : Nat) (er : Option String)
        (s : MgrState), Core.histLen id s ≤ 100 →
        Core.histLen id (Core.register_execution id su du er s) ≤ 100)
    ∧ (∀ (id : String) (rs : List (Bool × Nat × Option String))
        (s : MgrState),
        List.lookup id s.history = none → rs.length = 105 →
        Core.histAt id (Core.registerMany id rs s)
            = ((rs.map (Core.recOf s.clock)).reverse).take 100
        ∧ Core.histLen id (Core.registerMany id rs s) = 100
        ∧ (Core.histAt id (Core.registerMany id rs s)).reverse
            = (rs.map (Core.recOf s.clock)).drop 5)
    ∧ (∀ (id : String) (limit : Nat) (s : MgrState),
        Core.get_execution_history id limit s = (Core.histAt id s).take limit)
    ∧ (∀ (id : String) (limit : Nat) (s : MgrState),
        (Core.get_execution_history id limit s).length ≤ limit)
    ∧ (∀ (id : String) (limit : Nat) (s : MgrState),
        List.lookup id s.history = none →
        Core.get_execution_history id limit s = []) := by
  have hget : ∀ (id : String) (limit : Nat) (s : MgrState),
      Core.get_execution_history id limit s = (Core.histAt id s).take limit := by
    intro id limit s
    unfold Core.get_execution_history Core.histAt
    cases List.lookup id s.history with
    | none => simp
    | some h => rfl
  refine ⟨?_, ?_, hget, ?_, ?_⟩
  · intro id su du er s h
    rw [register_histLen id su du er s h]
    exact Nat.min_le_left _ _
  · intro id rs s hnone hlen
    have hempty : Core.histAt id s = [] := by
      unfold Core.histAt
      rw [hnone]
      rfl
    have h0 : (Core.histAt id s).length ≤ 100 := by
      rw [hempty]
      simp
    have hmain := registerMany_histAt id rs s h0
    rw [hempty, List.append_nil] at hmain
    have hlh : Core.histLen id (Core.registerMany id rs s) = 100 := by
      unfold Core.histLen
      rw [hmain, List.length_take, List.length_reverse, List.length_map, hlen]
      decide
    refine ⟨hmain, hlh, ?_⟩
    have hlrsm : (rs.map (Core.recOf s.clock)).length = 105 := by
      rw [List.length_map, hlen]
    have hdlen : (((rs.map (Core.recOf s.clock)).drop 5).reverse).length = 100 := by
      rw [List.length_reverse, List.length_drop, hlrsm]
    have hrev : (rs.map (Core.recOf s.clock)).reverse
        = ((rs.map (Core.recOf s.clock)).drop 5).reverse
          ++ ((rs.map (Core.recOf s.clock)).take 5).reverse := by
      conv_lhs => rw [← List.take_append_drop 5 (rs.map (Core.recOf s.clock))]
      rw [List.reverse_append]
    have htake : (rs.map (Core.recOf s.clock)).reverse.take 100
        = ((rs.map (Core.recOf s.clock)).drop 5).reverse := by
      rw [hrev, ← hdlen, List.take_left]
    rw [hmain, htake, List.reverse_reverse]
  · intro id limit s
    rw [hget, List.length_take]
    exact Nat.min_le_left _ _
  · intro id limit s h
    unfold Core.get_execution_history
    rw [h]

/-- Witness for `history_bounded`: 105 successful one-second records
appended to the empty history of `"x"` leave exactly 100, and an id
with no history yields the empty sequence. -/
theorem history_bounded_witness :
    Core.histLen "x" (Core.registerMany "x" rs105 sReg0) = 100
    ∧ Core.get_execution_history "z" 10 sReg0 = [] :=
  ⟨(history_bounded.2.1 "x" rs105 sReg0 rfl rfl).2.1,
   history_bounded.2.2.2.2 "z" 10 sReg0 rfl⟩

/-- C10: `BaseAgent.execute` of the flat layout always returns a
boolean — even when `run`, `process_data`, `generate_report` or
`save_results` raises, and even for a raise the `except Exception` arm
does not catch — because the `return` inside the `finally` block
discards any in-flight exception; and on every exit path the final
state has `is_running = False` and `last_run` stamped with the
completion time. -/
theorem execute_always_returns (b : Flat.BABehav) (now : Nat)
    (st : Flat.BAState) :
    (Flat.base_execute b now st).1.is_running = false
    ∧ (Flat.base_execute b now st).1.last_run = some now
    ∧ ∃ r : Bool, (Flat.base_execute b now st).2 = PyResult.value r :=
  ⟨rfl, rfl, ⟨_, rfl⟩⟩

/-- C6 counterexample: in the flat `BaseAgent.execute`, a run that
succeeds and produces results but whose `save_results` reports
`(True, False)` makes the whole execution return `False` — the
partial persistence failure does downgrade overall success, because
the code computes `success = csv_success and md_success`; the same
lifecycle with both flags true returns `True`. -/
theorem save_flag_downgrades :
    (Flat.base_execute bSavePart 7 stBA0).2 = PyResult.value false
    ∧ (Flat.base_execute bSaveOk 7 stBA0).2 = PyResult.value true :=
  ⟨rfl, rfl⟩

/-- C6 (amended): in the inner-package `BaseAgent.run` the return value
of `save_results` is discarded, so when the business logic succeeds on
DataFrame data the result reports success regardless of the two
persistence flags; in the flat `BaseAgent.execute`, by contrast, the
overall boolean is the conjunction of the two `save_results` flags, so
exactly one flag false downgrades it to `False`. -/
theorem persistFlagsIgnored (b : Core.RunBehav) (bb : Flat.BABehav)
    (c m : Bool) (now : Nat) (st : Flat.BAState)
    (h1 : b.execRes = .ok true) (h2 : b.processIsDF = .ok true)
    (h3 : b.genRes = .ok ())
    (h4 : bb.runRes = .ok true) (h5 : bb.resultsSome = true)
    (h6 : bb.processRes = .ok ()) (h7 : bb.genRes = .ok ())
    (h8 : bb.saveRes = .ok (c, m)) :
    Core.base_run b
      = .value ⟨⟨true, none⟩, "completed", some b.saveFlags, false⟩
    ∧ (Flat.base_execute bb now st).2 = PyResult.value (c && m) := by
  constructor
  · unfold Core.base_run
    rw [h1, h2, h3]
    simp
  · unfold Flat.base_execute Flat.try_body
    rw [h4, h5, h6, h7, h8]
    simp

/-- Witness for `persistFlagsIgnored` at the concrete behaviours with
`save_results` flags `(True, False)`. -/
theorem persistFlagsIgnored_witness :
    Core.base_run rbPart
      = .value ⟨⟨true, none⟩, "completed", some (true, false), false⟩
    ∧ (Flat.base_execute bSavePart 7 stBA0).2
      = PyResult.value (true && false) :=
  persistFlagsIgnored rbPart bSavePart true false 7 stBA0
    rfl rfl rfl rfl rfl rfl rfl rfl

/-- C5 counterexample: a timed-out execution and a plain business
failure produce identical outputs — the same returned boolean and the
same logged record — so the result carries no distinguishing timeout
error.  `behavSlow` (10-second run returning `True`) under timeout 5
times out; `behavBiz` (5-second run returning `False`) under timeout 99
does not, yet the outputs are equal. -/
theorem timeout_indistinguishable :
    Flat.execute_agent "a" (some behavSlow) 5
      = Flat.execute_agent "a" (some behavBiz) 99
    ∧ 5 < behavSlow.runDuration
    ∧ ¬ 99 < behavBiz.runDuration
    ∧ Flat.execute_agent "a" (some behavSlow) 5
      = (PyResult.value false,
         [{ agentId := "a", success := false, duration := 5 }]) :=
  ⟨rfl, by decide, by decide, rfl⟩

/-- C5 (amended): when the run outlasts the caller-supplied timeout,
`execute_agent` stops waiting and returns `False` without raising, and
records the attempt as exactly one failed log entry whose duration
field is the timeout value; neither the boolean result nor the log
entry carries an error message. -/
theorem timeout_enforced (id : String) (b : Flat.AgentBehav)
    (timeout : Nat) (h : timeout < b.runDuration) :
    Flat.execute_agent id (some b) timeout
      = (PyResult.value false,
         [{ agentId := id, success := false, duration := timeout }]) := by
  simp only [Flat.execute_agent]
  rw [if_pos h]

/-- Witness for `timeout_enforced`: the 10-second run under timeout 5. -/
theorem timeout_enforced_witness :
    Flat.execute_agent "a" (some behavSlow) 5
      = (PyResult.value false,
         [{ agentId := "a", success := false, duration := 5 }]) :=
  timeout_enforced "a" behavSlow 5 (by decide)

/-- C7 counterexample: a system failure whose exception message is the
empty string is recorded with no error at all (`error = None`), exactly
like a business failure — `_register_execution` only stores a truthy
error string — so the two failure kinds are not distinguishable from
the result alone in that case. -/
theorem empty_error_dropped :
    (Core.histAt "x" (Core.register_execution "x" false 2 (some "") sReg0)).head?
      = some { timestamp := 0, success := false, duration := 2, error := none }
    ∧ Core.histAt "x" (Core.register_execution "x" false 2 (some "") sReg0)
      = Core.histAt "x" (Core.register_execution "x" false 2 none sReg0) :=
  ⟨rfl, rfl⟩

/-- C7 (amended): a business failure (`execute` returned `False`
without raising) is recorded with `error = None`; a system failure
whose exception message is non-empty is recorded with that message as a
non-`None` error; the two are therefore distinguishable whenever the
exception message is non-empty. -/
theorem failure_kinds (id : String) (du : Nat) (m : String) (s : MgrState)
    (hm : m ≠ "") :
    (Core.histAt id (Core.register_execution id false du none s)).head?
      = some { timestamp := s.clock, success := false, duration := du,
               error := none }
    ∧ (Core.histAt id (Core.register_execution id false du (some m) s)).head?
      = some { timestamp := s.clock, success := false, duration := du,
               error := some m }
    ∧ some m ≠ (none : Option String) := by
  refine ⟨?_, ?_, by simp⟩
  · rw [register_histAt, stepHist_head]
    rfl
  · rw [register_histAt, stepHist_head]
    simp [Core.recOf, if_neg hm]

/-- Witness for `failure_kinds` with the non-empty message `"boom"`. -/
theorem failure_kinds_witness :
    (Core.histAt "x" (Core.register_execution "x" false 2 none sReg0)).head?
      = some { timestamp := 0, success := false, duration := 2, error := none }
    ∧ (Core.histAt "x" (Core.register_execution "x" false 2 (some "boom") sReg0)).head?
      = some { timestamp := 0, success := false, duration := 2,
               error := some "boom" }
    ∧ some "boom" ≠ (none : Option String) :=
  failure_kinds "x" 2 "boom" sReg0 (by decide)

/-- C9 counterexample: with the id `"x"` registered but unloadable, the
first resolution performs one load attempt and the second resolution
performs another — the registry re-attempts the load on every
resolution of a broken agent, so after two resolutions the attempt
count is 2, not 1. -/
theorem load_retried :
    (Core.get_agent envNone "x" sReg0).1 = none
    ∧ ((Core.get_agent envNone "x" sReg0).2).loadAttempts = 1
    ∧ (Core.get_agent envNone "x" ((Core.get_agent envNone "x" sReg0).2)).1 = none
    ∧ ((Core.get_agent envNone "x" ((Core.get_agent envNone "x" sReg0).2)).2).loadAttempts = 2 :=
  ⟨rfl, rfl, rfl, rfl⟩

/-- C9 (amended): a failed load leaves the agent registered as not
loaded with a null instance, and every subsequent resolution of the id
re-attempts the load — incrementing the attempt count — and fails
again while the import environment still cannot load it. -/
theorem broken_agent_reload (env : LoadEnv) (id : String) (s : MgrState)
    (hreg : List.lookup id s.agents = some { loaded := false, inst := none })
    (he : env id = none) :
    (Core.get_agent env id s).1 = none
    ∧ ((Core.get_agent env id s).2).loadAttempts = s.loadAttempts + 1
    ∧ List.lookup id ((Core.get_agent env id s).2).agents
        = some { loaded := false, inst := none } := by
  have hga : Core.get_agent env id s
      = ((List.lookup id ((Core.load_agent env id s).2).agents).bind
           (fun e1 => e1.inst),
         (Core.load_agent env id s).2) := by
    rw [get_agent_eq_entry env id s _ hreg]
    rfl
  rw [hga]
  refine ⟨?_, load_agent_attempts env id s, get_agent_after_load_none env id s he⟩
  rw [get_agent_after_load_none env id s he]
  rfl

/-- Witness for `broken_agent_reload` at the concrete unloadable
registry state. -/
theorem broken_agent_reload_witness :
    (Core.get_agent envNone "x" sReg0).1 = none
    ∧ ((Core.get_agent envNone "x" sReg0).2).loadAttempts = sReg0.loadAttempts + 1
    ∧ List.lookup "x" ((Core.get_agent envNone "x" sReg0).2).agents
        = some { loaded := false, inst := none } :=
  broken_agent_reload envNone "x" sReg0 rfl rfl

/-- C1: the re-entrancy guard of `run_agent` is dead for the package's
own agents.  In `sBusy` the status snapshot of `"linkedin"` reports the
state `"running"`, yet a further `run_agent` call is not rejected: the
guard reads the key `"is_running"`, which `BaseAgent.get_status` never
emits (it emits `"running"` and `"status"`), so the call starts a
second run, appends a history record and returns that run's success
instead of an immediate failure. -/
theorem reentry_guard_dead :
    (Core.get_agent_status envNone "linkedin" sBusy).1.statusKey = some "running"
    ∧ (Core.get_agent_status envNone "linkedin" sBusy).1.isRunningKey = none
    ∧ (Core.run_agent envNone "linkedin" 3 sBusy).1 = true
    ∧ Core.histLen "linkedin" (Core.run_agent envNone "linkedin" 3 sBusy).2 = 1
    ∧ Core.histLen "linkedin" sBusy = 0 :=
  ⟨rfl, rfl, rfl, rfl, rfl⟩

/-- C2: resolving an agent id twice returns the same instance both
times: once `get_agent` has returned an instance, calling it again in
the resulting state returns that very instance and leaves the state
unchanged — the cached instance is reused, never a fresh
construction. -/
theorem get_agent_idem (env : LoadEnv) (id : String) (s : MgrState)
    (a : AgentInstance) (s1 : MgrState)
    (h : Core.get_agent env id s = (some a, s1)) :
    Core.get_agent env id s1 = (some a, s1) := by
  cases hl : List.lookup id s.agents with
  | none =>
      rw [get_agent_eq_none env id s hl] at h
      simp at h
  | some e =>
      rw [get_agent_eq_entry env id s e hl] at h
      by_cases hc : (!e.loaded || e.inst.isNone) = true
      · rw [if_pos hc] at h
        cases he : env id with
        | none =>
            rw [get_agent_after_load_none env id s he] at h
            simp at h
        | some sp =>
            rw [get_agent_after_load_some env id s sp he,
              Prod.mk.injEq] at h
            obtain ⟨h1, h2⟩ := h
            simp only [Option.some_bind] at h1
            rw [← h2,
              get_agent_eq_entry env id ((Core.load_agent env id s).2) _
                (get_agent_after_load_some env id s sp he),
              if_neg (by simp), Prod.mk.injEq]
            exact ⟨h1, rfl⟩
      · rw [if_neg hc, Prod.mk.injEq] at h
        obtain ⟨h1, h2⟩ := h
        rw [← h2, get_agent_eq_entry env id s e hl, if_neg hc, h1]

/-- Witness for `get_agent_idem`: after the first resolution of `"x"`
constructed and cached `inst1`, a second resolution returns the same
instance without changing the state. -/
theorem get_agent_idem_witness :
    Core.get_agent env1 "x" sLoaded = (some inst1, sLoaded) :=
  get_agent_idem env1 "x" sReg0 inst1 sLoaded rfl

theorem run_agent_eq (env : LoadEnv) (id : String) (dur : Nat)
    (s : MgrState) (a : AgentInstance) (st : StatusDict) (s1 s2 : MgrState)
    (hga : Core.get_agent env id s = (some a, s1))
    (hgs : Core.get_agent_status env id s1 = (st, s2)) :
    Core.run_agent env id dur s
      = if st.isRunningKey.getD false then (false, s2)
        else
          match a.spec.executeRes with
          | .ok success =>
              (success,
               Core.set_status_field
                 (Core.register_execution id success dur none
                   (Core.set_status_field s2 id "running")) id
                 (if success then "completed" else "error"))
          | .exc msg =>
              (false,
               Core.set_status_field
                 (Core.register_execution id false dur (some msg)
                   (Core.set_status_field s2 id "running")) id "error") := by
  unfold Core.run_agent
  split
  · rename_i s1x heq
    rw [hga] at heq
    simp at heq
  · rename_i ax s1x heq
    rw [hga, Prod.mk.injEq] at heq
    obtain ⟨ha, hs⟩ := heq
    rw [Option.some.injEq] at ha
    subst ha
    subst hs
    split
    · rename_i stx s2x heq2
      rw [hgs, Prod.mk.injEq] at heq2
      obtain ⟨hst, hs2⟩ := heq2
      subst hst
      subst hs2
      rfl

/-- C3 counterexample: a call rejected by the already-running guard
appends no history record at all.  In `sReject` the snapshot of `"y"`
reports `is_running = True`; `run_agent` returns `False` and the
history is unchanged (still of length 0, not grown by one). -/
theorem reject_appends_nothing :
    (Core.get_agent_status envNone "y" sReject).1.isRunningKey = some true
    ∧ (Core.run_agent envNone "y" 3 sReject).1 = false
    ∧ Core.histLen "y" (Core.run_agent envNone "y" 3 sReject).2 = 0
    ∧ Core.histLen "y" sReject = 0 :=
  ⟨rfl, rfl, rfl, rfl⟩

/-- C3 (amended): a `run_agent` call that reaches actual execution
appends exactly one history record (the stored length grows by one, up
to the cap of 100), whether the run returns a boolean or raises; a
call rejected by the already-running guard, and a call whose agent
cannot be obtained, append none and return `False`. -/
theorem run_agent_appends :
    (∀ (env : LoadEnv) (id : String) (dur : Nat) (s : MgrState)
        (a : AgentInstance) (st : StatusDict) (s1 s2 : MgrState),
        Core.get_agent env id s = (some a, s1) →
        Core.get_agent_status env id s1 = (st, s2) →
        st.isRunningKey.getD false = false →
        Core.histLen id s ≤ 100 →
        Core.histLen id (Core.run_agent env id dur s).2
          = min 100 (Core.histLen id s + 1))
    ∧ (∀ (env : LoadEnv) (id : String) (dur : Nat) (s : MgrState)
        (a : AgentInstance) (st : StatusDict) (s1 s2 : MgrState),
        Core.get_agent env id s = (some a, s1) →
        Core.get_agent_status env id s1 = (st, s2) →
        st.isRunningKey.getD false = true →
        (Core.run_agent env id dur s).1 = false
        ∧ ((Core.run_agent env id dur s).2).history = s.history)
    ∧ (∀ (env : LoadEnv) (id : String) (dur : Nat) (s : MgrState)
        (s1 : MgrState),
        Core.get_agent env id s = (none, s1) →
        (Core.run_agent env id dur s).1 = false
        ∧ ((Core.run_agent env id dur s).2).history = s.history) := by
  refine ⟨?_, ?_, ?_⟩
  · intro env id dur s a st s1 s2 hga hgs hguard hlen
    rw [run_agent_eq env id dur s a st s1 s2 hga hgs,
      if_neg (by simp [hguard])]
    have h1hist : s1.history = s.history := by
      have e := get_agent_history env id s
      rw [hga] at e
      exact e
    have h2hist : s2.history = s1.history := by
      have e := get_agent_status_history env id s1
      rw [hgs] at e
      exact e
    have h3len : Core.histLen id (Core.set_status_field s2 id "running")
        = Core.histLen id s := by
      unfold Core.histLen Core.histAt
      rw [set_status_field_history, h2hist, h1hist]
    cases hE : a.spec.executeRes with
    | ok success =>
        show Core.histLen id
            (Core.set_status_field
              (Core.register_execution id success dur none
                (Core.set_status_field s2 id "running")) id
              (if success then "completed" else "error"))
          = min 100 (Core.histLen id s + 1)
        rw [set_status_field_histLen,
          register_histLen id success dur none _ (by rw [h3len]; exact hlen),
          h3len]
    | exc msg =>
        show Core.histLen id
            (Core.set_status_field
              (Core.register_execution id false dur (some msg)
                (Core.set_status_field s2 id "running")) id "error")
          = min 100 (Core.histLen id s + 1)
        rw [set_status_field_histLen,
          register_histLen id false dur (some msg) _ (by rw [h3len]; exact hlen),
          h3len]
  · intro env id dur s a st s1 s2 hga hgs hguard
    rw [run_agent_eq env id dur s a st s1 s2 hga hgs, if_pos hguard]
    refine ⟨rfl, ?_⟩
    have h1hist : s1.history = s.history := by
      have e := get_agent_history env id s
      rw [hga] at e
      exact e
    have h2hist : s2.history = s1.history := by
      have e := get_agent_status_history env id s1
      rw [hgs] at e
      exact e
    exact h2hist.trans h1hist
  · intro env id dur s s1 hga
    have hrun : Core.run_agent env id dur s = (false, s1) := by
      unfold Core.run_agent
      split
      · rename_i s1x heq
        rw [hga, Prod.mk.injEq] at heq
        obtain ⟨h1, h2⟩ := heq
        rw [h2]
      · rename_i ax s1x heq
        rw [hga] at heq
        simp at heq
    rw [hrun]
    refine ⟨rfl, ?_⟩
    have e := get_agent_history env id s
    rw [hga] at e
    exact e

/-- Witness for `run_agent_appends`: an executing call on the loaded
agent `"x"` grows its history from 0 to 1, and the rejected call on the
running agent `"y"` returns `False`. -/
theorem run_agent_appends_witness :
    Core.histLen "x" (Core.run_agent env1 "x" 3 sLoaded).2
      = min 100 (Core.histLen "x" sLoaded + 1)
    ∧ (Core.run_agent envNone "y" 3 sReject).1 = false :=
  ⟨run_agent_appends.1 env1 "x" 3 sLoaded inst1
      { isRunningKey := none, runningKey := some false,
        statusKey := some "ready" } sLoaded sLoaded rfl rfl rfl (by decide),
   (run_agent_appends.2.1 envNone "y" 3 sReject instDuck
      { isRunningKey := some true, runningKey := none,
        statusKey := some "running" } sReject sReject rfl rfl rfl).1⟩

/-- C8 counterexample: for a parallel batch submitted as `["a","b"]`
and completing in the order `b` then `a`, `execute_multiple_agents`
returns its results dictionary keyed `["b","a"]` — completion order,
not the input order `["a","b"]` — because `as_completed` fills the
dict as futures finish. -/
theorem parallel_results_completion_order :
    List.Perm ["b", "a"] ["a", "b"]
    ∧ (Flat.execute_multiple_parallel resTrue ["b", "a"]).map Prod.fst
        = ["b", "a"]
    ∧ ["b", "a"] ≠ ["a", "b"] :=
  ⟨by decide, rfl, by decide⟩

/-- C8 (amended): the legacy `run_all_agents` parallel path, which uses
`asyncio.gather`, returns the per-agent results positionally matching
the input id list, whatever the completion order of the tasks; the flat
`execute_multiple_agents` instead returns a dict filled in completion
order (see the counterexample). -/
theorem gather_positional (outcome : String → Bool) (durOf : String → Nat)
    (ids : List String) (order : List Nat)
    (hcov : ∀ i ∈ List.range ids.length, i ∈ order) :
    Legacy.run_all_agents outcome durOf ids order
      = ids.map (fun id =>
          { agent_id := id, success := outcome id,
            duration := durOf id }) := by
  unfold Legacy.run_all_agents
  have hpt : ∀ i ∈ List.range ids.length,
      (Legacy.gather_slots
          (fun j =>
            ({ agent_id := ids.getD j "", success := outcome (ids.getD j ""),
               duration := durOf (ids.getD j "") } : Legacy.RunRes)) order i).getD
        { agent_id := "", success := false, duration := 0 }
      = ({ agent_id := ids.getD i "", success := outcome (ids.getD i ""),
           duration := durOf (ids.getD i "") } : Legacy.RunRes) := by
    intro i hi
    unfold Legacy.gather_slots
    rw [gather_fold, if_pos (hcov i hi)]
    rfl
  rw [List.map_congr_left hpt]
  exact range_map_getD
    (fun x =>
      ({ agent_id := x, success := outcome x,
         duration := durOf x } : Legacy.RunRes))
    "" ids

/-- Witness for `gather_positional`: three agents, `"b"` slowest, tasks
completing in the order 2, 0, 1, still reported positionally. -/
theorem gather_positional_witness :
    Legacy.run_all_agents outW durW ["a", "b", "c"] [2, 0, 1]
      = List.map (fun id =>
          { agent_id := id, success := outW id, duration := durW id })
        ["a", "b", "c"] :=
  gather_positional outW durW ["a", "b", "c"] [2, 0, 1] (by decide)
